import Mathlib

/-!
Shallow embedding of the In-Your-Face caricature pipeline core:
region catalog and distortion (regions.ts), Voronoi seed generation
(voronoi.ts), seeded RNG and shuffle (hashing.ts), indicator
normalization (indicators.ts), the affine warp solve (image-processor),
and the seed-count formulas of the preview/export canvas.

JavaScript numbers are modelled as rationals (exact arithmetic); 32-bit
integer operations of the RNG are modelled on naturals reduced mod 2^32.
-/

namespace IYF

/-- A 2-D point, `{ x, y }` in the source. -/
structure Pt where
  x : ℚ
  y : ℚ
deriving DecidableEq, Repr, Inhabited

/-- The closed set of region identifiers (`RegionType` in regions.ts). -/
inductive RegionType where
  | Forehead | Nose | Eyes | Mouth | Cheeks | Chin | Hair | Neck | Background
deriving DecidableEq, Repr, Inhabited

/-- Region unlock tier. -/
inductive Tier where
  | primary | secondary | auxiliary
deriving DecidableEq, Repr, Inhabited

/-- A facial region (`Region` in regions.ts). -/
structure Region where
  id : RegionType
  priority : ℤ
  polygon : List Pt
  tier : Tier
deriving DecidableEq, Repr, Inhabited

/-- An economic indicator (`Indicator` in indicators.ts); fields not used
by the embedded logic (name, unit, category) are kept as plain data. -/
structure Indicator where
  id : String
  name : String
  current : ℚ
  min : ℚ
  max : ℚ
deriving DecidableEq, Repr

/-- `normalizeIndicator` from indicators.ts:
`if (max <= min) return 0.5; return Math.max(0, Math.min(1, (current-min)/(max-min)))`. -/
def normalizeIndicator (ind : Indicator) : ℚ :=
  if ind.max ≤ ind.min then 1/2
  else max 0 (min 1 ((ind.current - ind.min) / (ind.max - ind.min)))

/-- The fixed region catalog `FACE_REGIONS` from regions.ts, coordinates
verbatim as rationals. -/
def FACE_REGIONS : List Region :=
  [ { id := .Forehead, tier := .primary, priority := 1,
      polygon := [⟨3/10, 1/10⟩, ⟨7/10, 1/10⟩, ⟨8/10, 25/100⟩, ⟨2/10, 25/100⟩] },
    { id := .Eyes, tier := .primary, priority := 2,
      polygon := [⟨2/10, 25/100⟩, ⟨8/10, 25/100⟩, ⟨8/10, 45/100⟩, ⟨2/10, 45/100⟩] },
    { id := .Nose, tier := .primary, priority := 3,
      polygon := [⟨4/10, 25/100⟩, ⟨6/10, 25/100⟩, ⟨65/100, 6/10⟩, ⟨35/100, 6/10⟩] },
    { id := .Mouth, tier := .primary, priority := 4,
      polygon := [⟨3/10, 6/10⟩, ⟨7/10, 6/10⟩, ⟨75/100, 75/100⟩, ⟨25/100, 75/100⟩] },
    { id := .Background, tier := .primary, priority := 0,
      polygon := [⟨0, 0⟩, ⟨1, 0⟩, ⟨1, 1⟩, ⟨0, 1⟩] },
    { id := .Cheeks, tier := .secondary, priority := 5,
      polygon := [⟨15/100, 25/100⟩, ⟨35/100, 6/10⟩, ⟨65/100, 6/10⟩, ⟨85/100, 25/100⟩] },
    { id := .Chin, tier := .secondary, priority := 6,
      polygon := [⟨3/10, 75/100⟩, ⟨7/10, 75/100⟩, ⟨5/10, 9/10⟩] },
    { id := .Hair, tier := .auxiliary, priority := 7,
      polygon := [⟨1/10, 0⟩, ⟨9/10, 0⟩, ⟨1, 5/10⟩, ⟨9/10, 3/10⟩, ⟨1/10, 3/10⟩, ⟨0, 5/10⟩] },
    { id := .Neck, tier := .auxiliary, priority := 8,
      polygon := [⟨3/10, 85/100⟩, ⟨7/10, 85/100⟩, ⟨7/10, 1⟩, ⟨3/10, 1⟩] } ]

/-- `getUnlockedRegions` from regions.ts: tier gating by indicator count. -/
def getUnlockedRegions (indicatorCount : ℕ) : List Region :=
  FACE_REGIONS.filter fun region =>
    if indicatorCount ≤ 3 then decide (region.tier = Tier.primary)
    else if indicatorCount ≤ 6 then
      decide (region.tier = Tier.primary) || decide (region.tier = Tier.secondary)
    else true

/-- The directed edge list traversed by the ray-casting loop of
`isPointInPolygon`: vertex `i` paired with the previous vertex `j`
(`j = polygon.length - 1` for `i = 0`, else `i - 1`).  The previous-vertex
list is the polygon rotated left by `length - 1`. -/
def edgeList (polygon : List Pt) : List (Pt × Pt) :=
  polygon.zip (polygon.rotate (polygon.length - 1))

/-- One iteration of the ray-casting loop: does the edge `(pi, pj)` cross
the horizontal ray from `point`?  (`&&` short-circuits in the source, so
the division is only reached when `yi ≠ yj`; in ℚ, division by zero is 0
and the first conjunct is then false anyway.) -/
def edgeCross (point : Pt) (e : Pt × Pt) : Bool :=
  (decide ((e.1.y > point.y) ≠ (e.2.y > point.y))) &&
    decide (point.x <
      (e.2.x - e.1.x) * (point.y - e.1.y) / (e.2.y - e.1.y) + e.1.x)

/-- `isPointInPolygon` from regions.ts: ray casting, flipping `inside`
once per crossing edge. -/
def isPointInPolygon (point : Pt) (polygon : List Pt) : Bool :=
  (edgeList polygon).foldl
    (fun inside e => if edgeCross point e then !inside else inside) false

/-- The ambient JS math library surface used by `getDynamicRegions`
(`Math.PI`, `Math.cos`, `Math.sin`), kept abstract: the embedding is
parametric in it, and no claim depends on its values. -/
structure JsMath where
  pi : ℚ
  cos : ℚ → ℚ
  sin : ℚ → ℚ

/-- The per-region body of `getDynamicRegions` from regions.ts: look up
the region's indicator; if none, pass the region through; otherwise
distort a copy of the polygon according to the region's identity. -/
def transformRegion (jm : JsMath) (regionMap : RegionType → Option Indicator)
    (region : Region) : Region :=
  match regionMap region.id with
  | none => region
  | some indicator =>
    let magnitude := normalizeIndicator indicator
    let poly := region.polygon
    if region.id = RegionType.Forehead then
      let shiftY := (magnitude - 1/2) * (15/100)
      let scaleY := 1 + (magnitude - 1/2) * (6/10)
      let topY := poly.foldl (fun acc p => min acc p.y) 1
      { region with polygon := poly.map (fun p => { p with y := topY + (p.y - topY) * scaleY - shiftY }) }
    else if region.id = RegionType.Mouth then
      let scaleX := 6/10 + magnitude * (8/10)
      let scaleY := 8/10 + magnitude * (4/10)
      let centerX := (poly.foldl (fun acc p => acc + p.x) 0) / (poly.length : ℚ)
      let centerY := (poly.foldl (fun acc p => acc + p.y) 0) / (poly.length : ℚ)
      { region with polygon := poly.map (fun p =>
            { x := centerX + (p.x - centerX) * scaleX,
              y := centerY + (p.y - centerY) * scaleY }) }
    else if region.id = RegionType.Chin then
      let skewX := (magnitude - 1/2) * (2/10)
      if magnitude > 1/2 then
        { region with polygon := poly.map (fun p =>
              { p with x := p.x + (p.y - 75/100) * skewX *
                  (if p.x > 5/10 then 3/2 else 1/2) }) }
      else
        { region with polygon := poly.map (fun p => { p with x := p.x + (p.y - 75/100) * skewX }) }
    else if region.id = RegionType.Eyes ∨ region.id = RegionType.Cheeks then
      let angleDeg := (magnitude - 1/2) * 30
      let angleRad := angleDeg * jm.pi / 180
      let c := jm.cos angleRad
      let s := jm.sin angleRad
      let centerX := (poly.foldl (fun acc p => acc + p.x) 0) / (poly.length : ℚ)
      let centerY := (poly.foldl (fun acc p => acc + p.y) 0) / (poly.length : ℚ)
      if magnitude > 6/10 then
        { region with polygon := poly.map (fun p =>
              let scaleFactor : ℚ := if p.x < 5/10 then 12/10 else 9/10
              let dx := p.x - centerX
              let dy := p.y - centerY
              let rx := centerX + (dx * c - dy * s)
              let ry := centerY + (dx * s + dy * c)
              { x := centerX + (rx - centerX) * scaleFactor, y := ry }) }
      else
        { region with polygon := poly.map (fun p =>
              let dx := p.x - centerX
              let dy := p.y - centerY
              { x := centerX + (dx * c - dy * s), y := centerY + (dx * s + dy * c) }) }
    else
      { region with polygon := poly }

/-- `getDynamicRegions` from regions.ts (the `indicators` argument is
unused in the source body as well). -/
def getDynamicRegions (indicators : List Indicator)
    (regionMap : RegionType → Option Indicator) (jm : JsMath) : List Region :=
  let _ := indicators
  FACE_REGIONS.map (transformRegion jm regionMap)

/-- `getRegionAt` from regions.ts: candidate set is the supplied dynamic
regions, else the unlocked regions; sort by descending priority; first
polygon containing the point wins, default Background. -/
def getRegionAt (x y : ℚ) (indicatorCount : ℕ)
    (dynamicRegions : Option (List Region)) : RegionType :=
  let regions := dynamicRegions.getD (getUnlockedRegions indicatorCount)
  let sorted := regions.mergeSort (fun a b => decide (b.priority ≤ a.priority))
  match sorted.find? (fun r => isPointInPolygon ⟨x, y⟩ r.polygon) with
  | some r => r.id
  | none => RegionType.Background

/-- One call of the Mulberry32 generator from hashing.ts, on the stored
seed accumulator: returns the new accumulator and the 32-bit output word.
JS bitwise operations reduce their operand to 32 bits; `Math.imul` is
multiplication mod 2^32. -/
def rngStep (s : ℕ) : ℕ × ℕ :=
  let s2 := s + 0x6D2B79F5
  let u := s2 % 4294967296
  let v := ((u ^^^ (u >>> 15)) * (u ||| 1)) % 4294967296
  let w := ((v ^^^ (v >>> 7)) * (v ||| 61)) % 4294967296
  let z := v ^^^ ((v + w) % 4294967296)
  (s2, z ^^^ (z >>> 14))

/-- The float the generator returns: `(word >>> 0) / 4294967296`. -/
def rngQ (r : ℕ) : ℚ := (r : ℚ) / 4294967296

/-- `Math.floor(rng() * (i + 1))` as used by the Fisher–Yates loop. -/
def jIdx (r : ℕ) (n : ℕ) : ℕ := (Int.floor (rngQ r * (n : ℚ))).toNat

/-- Swap two positions of a list (the destructuring swap of the source);
out-of-range indices leave the list unchanged (never hit by the loop). -/
def listSwap {α : Type} (l : List α) (i j : ℕ) : List α :=
  match l[i]?, l[j]? with
  | some a, some b => (l.set i b).set j a
  | _, _ => l

/-- The Fisher–Yates loop of `seededShuffle`, with the loop index as the
recursion fuel: index `i` runs from `length - 1` down to `1`. -/
def fyGo {α : Type} (s : ℕ) (arr : List α) : ℕ → List α
  | 0 => arr
  | i + 1 =>
    let st := rngStep s
    let j := jIdx st.2 (i + 2)
    fyGo st.1 (listSwap arr (i + 1) j) i

/-- `seededShuffle` from hashing.ts: copy the array, then Fisher–Yates
with the seeded generator. -/
def seededShuffle {α : Type} (array : List α) (seed : ℕ) : List α :=
  fyGo seed array (array.length - 1)

/-- Squared Euclidean distance, `dx*dx + dy*dy` of `findNearestSeed`. -/
def dist2 (p s : Pt) : ℚ :=
  (p.x - s.x) * (p.x - s.x) + (p.y - s.y) * (p.y - s.y)

/-- `dist < minDist` with `minDist` initialized to `Infinity` (`none`). -/
def ltMin (d : ℚ) : Option ℚ → Bool
  | none => true
  | some m => decide (d < m)

/-- The scan loop of `findNearestSeed`. -/
def fnsGo (p : Pt) : List Pt → Option ℚ → Pt → Pt
  | [], _, nearest => nearest
  | s :: rest, minDist, nearest =>
    let d := dist2 p s
    if ltMin d minDist then fnsGo p rest (some d) s
    else fnsGo p rest minDist nearest

/-- `findNearestSeed` from voronoi.ts: `null` on an empty list, else a
linear scan over all seeds starting from `nearest = seeds[0]`,
`minDist = Infinity`. -/
def findNearestSeed (p : Pt) (seeds : List Pt) : Option Pt :=
  match seeds with
  | [] => none
  | s :: _ => some (fnsGo p seeds none s)

/-- The candidate loop of `generateClippedSeeds`, fuel = remaining
attempts; returns the points list and the number of attempts consumed.
Each attempt draws `x`, `y`; an accepted point draws two more jitter
values before being pushed. -/
def gcsGo (count : ℕ) (polygon : List Pt) (w h magnitude : ℚ) :
    ℕ → ℕ → List Pt → List Pt × ℕ
  | 0, _, pts => (pts, 0)
  | fuel + 1, s, pts =>
    if count ≤ pts.length then (pts, 0)
    else
      let st1 := rngStep s
      let x := rngQ st1.2
      let st2 := rngStep st1.1
      let y := rngQ st2.2
      if isPointInPolygon ⟨x, y⟩ polygon then
        let st3 := rngStep st2.1
        let jitterX := (rngQ st3.2 - 1/2) * magnitude * (1/10)
        let st4 := rngStep st3.1
        let jitterY := (rngQ st4.2 - 1/2) * magnitude * (1/10)
        let res := gcsGo count polygon w h magnitude fuel st4.1
          (pts ++ [⟨(x + jitterX) * w, (y + jitterY) * h⟩])
        (res.1, res.2 + 1)
      else
        let res := gcsGo count polygon w h magnitude fuel st2.1 pts
        (res.1, res.2 + 1)

/-- `generateClippedSeeds` from voronoi.ts with its attempt counter:
`maxAttempts = count * 5`. -/
def generateClippedSeedsA (count : ℕ) (polygon : List Pt)
    (bounds : ℚ × ℚ) (seed : ℕ) (magnitude : ℚ) : List Pt × ℕ :=
  gcsGo count polygon bounds.1 bounds.2 magnitude (count * 5) seed []

/-- `generateClippedSeeds` (the returned point list). -/
def generateClippedSeeds (count : ℕ) (polygon : List Pt)
    (bounds : ℚ × ℚ) (seed : ℕ) (magnitude : ℚ) : List Pt :=
  (generateClippedSeedsA count polygon bounds seed magnitude).1

/-- Per-region Voronoi seed count at preview resolution
(PreviewCanvas.tsx: `Math.ceil(magnitude * 10) + 2`). -/
def previewSeedCount (magnitude : ℚ) : ℤ := Int.ceil (magnitude * 10) + 2

/-- Per-region Voronoi seed count at export resolution
(PreviewCanvas.tsx `exportPNG`: `Math.ceil(magnitude * 20) + 5`). -/
def exportSeedCount (magnitude : ℚ) : ℤ := Int.ceil (magnitude * 20) + 5

/-- The affine coefficients `(a, b, c, d, e, f)` passed to
`ctx.setTransform` by `warpCaricature`. -/
structure Affine where
  a : ℚ
  b : ℚ
  c : ℚ
  d : ℚ
  e : ℚ
  f : ℚ
deriving DecidableEq, Repr

/-- The per-region body of `warpCaricature` (image-processor): `none`
means the region's warp is skipped (Background, or an early `return` on
a near-zero determinant); `some` carries the transform that is applied.
The unused first Cramer attempt of the source (`a`, `c`) is dead code and
omitted; both `denom` and `det` are computed from the SOURCE triple, in
pixel coordinates. -/
def warpRegionTransform (width height : ℚ) (sRegion tRegion : Region) :
    Option Affine :=
  if sRegion.id = RegionType.Background then none
  else
    let p0s := sRegion.polygon.getD 0 default
    let p1s := sRegion.polygon.getD 1 default
    let p2s := sRegion.polygon.getD 2 default
    let p0t := tRegion.polygon.getD 0 default
    let p1t := tRegion.polygon.getD 1 default
    let p2t := tRegion.polygon.getD 2 default
    let x0s := p0s.x * width
    let y0s := p0s.y * height
    let x1s := p1s.x * width
    let y1s := p1s.y * height
    let x2s := p2s.x * width
    let y2s := p2s.y * height
    let x0t := p0t.x * width
    let y0t := p0t.y * height
    let x1t := p1t.x * width
    let y1t := p1t.y * height
    let x2t := p2t.x * width
    let y2t := p2t.y * height
    let denom := x0s * (y1s - y2s) - x1s * (y0s - y2s) + x2s * (y0s - y1s)
    if |denom| < 1/10000 then none
    else
      let det := x0s * (y1s - y2s) - y0s * (x1s - x2s) + (x1s * y2s - x2s * y1s)
      if |det| < 1/1000 then none
      else
        let idet := 1 / det
        let m00 := (y1s - y2s) * idet
        let m01 := (y2s - y0s) * idet
        let m02 := (y0s - y1s) * idet
        let m10 := (x2s - x1s) * idet
        let m11 := (x0s - x2s) * idet
        let m12 := (x1s - x0s) * idet
        let m20 := (x1s * y2s - x2s * y1s) * idet
        let m21 := (x2s * y0s - x0s * y2s) * idet
        let m22 := (x0s * y1s - x1s * y0s) * idet
        some
          { a := m00 * x0t + m01 * x1t + m02 * x2t,
            c := m10 * x0t + m11 * x1t + m12 * x2t,
            e := m20 * x0t + m21 * x1t + m22 * x2t,
            b := m00 * y0t + m01 * y1t + m02 * y2t,
            d := m10 * y0t + m11 * y1t + m12 * y2t,
            f := m20 * y0t + m21 * y1t + m22 * y2t }

/-- The pixel-space determinant of a region's first three polygon
vertices (the `det` of `warpCaricature`). -/
def sourceDet (width height : ℚ) (r : Region) : ℚ :=
  let p0 := r.polygon.getD 0 default
  let p1 := r.polygon.getD 1 default
  let p2 := r.polygon.getD 2 default
  (p0.x * width) * (p1.y * height - p2.y * height)
    - (p0.y * height) * (p1.x * width - p2.x * width)
    + ((p1.x * width) * (p2.y * height) - (p2.x * width) * (p1.y * height))

/-- Three points are collinear: zero cross product of the two spanning
vectors. -/
def collinearTriple (p q r : Pt) : Prop :=
  (q.x - p.x) * (r.y - p.y) - (q.y - p.y) * (r.x - p.x) = 0

/-- An indicator whose normalized magnitude is exactly `m` for
`0 ≤ m ≤ 1` (`current = m` on the range `[0, 1]`). -/
def mkMagIndicator (m : ℚ) : Indicator :=
  { id := "inflation_vol", name := "Inflation Volatility",
    current := m, min := 0, max := 1 }

/-- A region map assigning an indicator of magnitude `m` to Chin only. -/
def chinOnlyMap (m : ℚ) : RegionType → Option Indicator :=
  fun rt => if rt = RegionType.Chin then some (mkMagIndicator m) else none

/-- A concrete JS math instance (irrelevant to the Chin branch). -/
def jm0 : JsMath := { pi := 0, cos := fun _ => 1, sin := fun _ => 0 }

/-- The dynamic Chin polygon as a function of the magnitude `m`. -/
def chinPolyAt (m : ℚ) : List Pt :=
  (((getDynamicRegions [] (chinOnlyMap m) jm0).find?
    (fun r => decide (r.id = RegionType.Chin))).getD default).polygon

/-- The x-coordinate of the third (apex) Chin vertex as a function of the
magnitude. -/
def chinThirdX (m : ℚ) : ℚ := ((chinPolyAt m).getD 2 default).x

/-- The nearest-seed contract: `r` occurs in the list, every seed before
its first occurrence is strictly farther, and no seed is closer. -/
def NearestSpec (p : Pt) (l : List Pt) (r : Pt) : Prop :=
  ∃ pre post, l = pre ++ r :: post ∧
    (∀ s ∈ pre, dist2 p r < dist2 p s) ∧
    (∀ s ∈ l, dist2 p r ≤ dist2 p s)

/-- Right-continuity of `f` at `a` (ε-δ form over ℚ). -/
def RightContinuousAt (f : ℚ → ℚ) (a : ℚ) : Prop :=
  ∀ ε : ℚ, 0 < ε → ∃ δ : ℚ, 0 < δ ∧
    ∀ m : ℚ, a < m → m < a + δ → |f m - f a| < ε

/-- Left-continuity of `f` at `a` (ε-δ form over ℚ). -/
def LeftContinuousAt (f : ℚ → ℚ) (a : ℚ) : Prop :=
  ∀ ε : ℚ, 0 < ε → ∃ δ : ℚ, 0 < δ ∧
    ∀ m : ℚ, a - δ < m → m < a → |f m - f a| < ε

end IYF

/-- C3: `normalizeIndicator` always lands in [0,1]; it is monotone
non-decreasing in `current` when `min < max`; and it returns exactly 0.5
when `max ≤ min`. -/
theorem C3_normalize_indicator :
    (∀ ind : IYF.Indicator,
      0 ≤ IYF.normalizeIndicator ind ∧ IYF.normalizeIndicator ind ≤ 1) ∧
    (∀ a b : IYF.Indicator, a.min = b.min → a.max = b.max → a.min < a.max →
      a.current ≤ b.current →
      IYF.normalizeIndicator a ≤ IYF.normalizeIndicator b) ∧
    (∀ ind : IYF.Indicator, ind.max ≤ ind.min →
      IYF.normalizeIndicator ind = 1/2) := by
  refine ⟨?_, ?_, ?_⟩
  · intro ind
    unfold IYF.normalizeIndicator
    split
    · norm_num
    · constructor
      · exact le_max_left 0 _
      · exact max_le (by norm_num) (min_le_left 1 _)
  · intro a b hmin hmax hlt hcur
    unfold IYF.normalizeIndicator
    rw [if_neg (not_le.mpr hlt), if_neg (not_le.mpr (hmin ▸ hmax ▸ hlt))]
    have hden : (0:ℚ) < a.max - a.min := by linarith
    have : (a.current - a.min) / (a.max - a.min) ≤
        (b.current - b.min) / (b.max - b.min) := by
      rw [← hmin, ← hmax]
      exact (div_le_div_iff_of_pos_right hden).mpr (by linarith)
    exact max_le_max le_rfl (min_le_min le_rfl this)
  · intro ind h
    unfold IYF.normalizeIndicator
    rw [if_pos h]

/-- Witness for C3 at a concrete indicator pair. -/
theorem C3_normalize_indicator_witness :
    IYF.normalizeIndicator ⟨"gdp", "GDP", 2, 0, 10⟩ ≤
      IYF.normalizeIndicator ⟨"gdp", "GDP", 7, 0, 10⟩ :=
  C3_normalize_indicator.2.1 ⟨"gdp", "GDP", 2, 0, 10⟩ ⟨"gdp", "GDP", 7, 0, 10⟩
    rfl rfl (by norm_num) (by norm_num)

/-- C9: per-region seed counts: export at magnitude 0 is 5, at magnitude 1
is 25, and for every magnitude in [0,1] the export count strictly exceeds
the preview count. -/
theorem C9_seed_density :
    IYF.exportSeedCount 0 = 5 ∧ IYF.exportSeedCount 1 = 25 ∧
    ∀ m : ℚ, 0 ≤ m → m ≤ 1 →
      IYF.previewSeedCount m < IYF.exportSeedCount m := by
  refine ⟨by norm_num [IYF.exportSeedCount], by norm_num [IYF.exportSeedCount], ?_⟩
  intro m h0 _
  unfold IYF.previewSeedCount IYF.exportSeedCount
  have h : Int.ceil (m * 10) ≤ Int.ceil (m * 20) :=
    Int.ceil_le_ceil (by nlinarith)
  omega

/-- Witness for C9 at magnitude 1/2. -/
theorem C9_seed_density_witness :
    IYF.previewSeedCount (1/2) < IYF.exportSeedCount (1/2) :=
  C9_seed_density.2.2 (1/2) (by norm_num) (by norm_num)

/-- `transformRegion` only ever rebuilds the polygon: identity, priority
and tier are copied unchanged. -/
theorem transformRegion_fields (jm : IYF.JsMath)
    (rm : IYF.RegionType → Option IYF.Indicator) (region : IYF.Region) :
    (IYF.transformRegion jm rm region).id = region.id ∧
    (IYF.transformRegion jm rm region).priority = region.priority ∧
    (IYF.transformRegion jm rm region).tier = region.tier := by
  unfold IYF.transformRegion
  cases rm region.id with
  | none => exact ⟨rfl, rfl, rfl⟩
  | some ind =>
    dsimp only
    split_ifs <;> exact ⟨rfl, rfl, rfl⟩

/-- C10: every dynamic region derived by `getDynamicRegions` keeps its
template's identity, priority and tier (only the polygon may change), and
the derivation maps the static catalog without touching it. -/
theorem C10_dynamic_regions_preserve_identity
    (indicators : List IYF.Indicator)
    (regionMap : IYF.RegionType → Option IYF.Indicator) (jm : IYF.JsMath) :
    (IYF.getDynamicRegions indicators regionMap jm).map
        (fun r => (r.id, r.priority, r.tier)) =
      IYF.FACE_REGIONS.map (fun r => (r.id, r.priority, r.tier)) := by
  unfold IYF.getDynamicRegions
  rw [List.map_map]
  apply List.map_congr_left
  intro region _
  obtain ⟨h1, h2, h3⟩ := transformRegion_fields jm regionMap region
  simp [h1, h2, h3]

/-- The candidate loop of `generateClippedSeeds` never grows the point
list beyond `count` and consumes at most `fuel` attempts. -/
theorem gcsGo_bounds (count : ℕ) (polygon : List IYF.Pt) (w h mag : ℚ) :
    ∀ (fuel s : ℕ) (pts : List IYF.Pt), pts.length ≤ count →
      (IYF.gcsGo count polygon w h mag fuel s pts).1.length ≤ count ∧
      (IYF.gcsGo count polygon w h mag fuel s pts).2 ≤ fuel := by
  intro fuel
  induction fuel with
  | zero => intro s pts hle; exact ⟨hle, le_rfl⟩
  | succ n ih =>
    intro s pts hle
    unfold IYF.gcsGo
    dsimp only
    split_ifs with hstop _hin
    · exact ⟨hle, Nat.zero_le _⟩
    · have hlt : pts.length < count := lt_of_not_le hstop
      exact ⟨(ih _ _ (by simpa using hlt)).1,
        Nat.succ_le_succ (ih _ _ (by simpa using hlt)).2⟩
    · exact ⟨(ih _ _ hle).1, Nat.succ_le_succ (ih _ _ hle).2⟩

/-- C7: `generateClippedSeeds` makes at most `count * 5` attempts and
returns at most `count` points; and (concretely, for an empty polygon
that rejects every candidate) the result can legitimately hold fewer
than `count` points. -/
theorem C7_clipped_seeds_bounds :
    (∀ (count : ℕ) (polygon : List IYF.Pt) (bounds : ℚ × ℚ)
        (seed : ℕ) (magnitude : ℚ),
      (IYF.generateClippedSeeds count polygon bounds seed magnitude).length
          ≤ count ∧
      (IYF.generateClippedSeedsA count polygon bounds seed magnitude).2
          ≤ count * 5) ∧
    (IYF.generateClippedSeeds 1 [] (1, 1) 42 0).length < 1 := by
  constructor
  · intro count polygon bounds seed magnitude
    exact gcsGo_bounds count polygon bounds.1 bounds.2 magnitude
      (count * 5) seed [] (Nat.zero_le _)
  · decide

/-- Replacing position `n` of a list exchanges the old element for the
new one in the underlying multiset. -/
theorem multiset_set {α : Type} (l : List α) (n : ℕ) (a : α)
    (h : n < l.length) :
    ((l.set n a : List α) : Multiset α) + {l[n]} = (l : Multiset α) + {a} := by
  induction l generalizing n with
  | nil => simp at h
  | cons x t ih =>
    cases n with
    | zero =>
      simp only [List.set, List.getElem_cons_zero]
      rw [← Multiset.cons_coe, ← Multiset.cons_coe]
      rw [← Multiset.singleton_add, ← Multiset.singleton_add]
      abel
    | succ n =>
      have hn : n < t.length := by simpa using h
      simp only [List.set, List.getElem_cons_succ]
      rw [← Multiset.cons_coe, ← Multiset.cons_coe,
        Multiset.cons_add, Multiset.cons_add, ih n hn]

/-- Writing back the element already at position `i` is the identity. -/
theorem set_getElem_id {α : Type} (l : List α) (i : ℕ) (h : i < l.length) :
    l.set i l[i] = l := by
  apply List.ext_getElem (by simp)
  intro n h1 h2
  by_cases hin : i = n
  · subst hin; simp
  · rw [List.getElem_set_ne hin]

/-- Swapping two positions of a list is a permutation. -/
theorem listSwap_perm {α : Type} (l : List α) (i j : ℕ) :
    (IYF.listSwap l i j).Perm l := by
  unfold IYF.listSwap
  cases hi : l[i]? with
  | none => exact List.Perm.refl l
  | some a =>
    cases hj : l[j]? with
    | none => exact List.Perm.refl l
    | some b =>
      have hil : i < l.length := (List.getElem?_eq_some_iff.mp hi).1
      have hjl : j < l.length := (List.getElem?_eq_some_iff.mp hj).1
      have ha : a = l[i] := ((List.getElem?_eq_some_iff.mp hi).2).symm
      have hb : b = l[j] := ((List.getElem?_eq_some_iff.mp hj).2).symm
      show ((l.set i b).set j a).Perm l
      by_cases hij : i = j
      · subst hij
        rw [List.set_set, ha, set_getElem_id l i hil]
      · subst ha
        subst hb
        rw [← Multiset.coe_eq_coe]
        have hjl2 : j < (l.set i l[j]).length := by simpa using hjl
        have S1 := multiset_set l i l[j] hil
        have S2 := multiset_set (l.set i l[j]) j l[i] hjl2
        have hsame : (l.set i l[j])[j] = l[j] :=
          List.getElem_set_ne hij hjl2
        rw [hsame] at S2
        exact add_right_cancel (S2.trans S1)

/-- The Fisher–Yates loop permutes its array. -/
theorem fyGo_perm {α : Type} :
    ∀ (fuel s : ℕ) (arr : List α), (IYF.fyGo s arr fuel).Perm arr := by
  intro fuel
  induction fuel with
  | zero => intro s arr; exact List.Perm.refl arr
  | succ i ih =>
    intro s arr
    unfold IYF.fyGo
    exact (ih _ _).trans (listSwap_perm arr (i + 1) _)

/-- C4: `seededShuffle` returns a permutation of its input (same
multiset) for every list and every seed; as a pure function of
`(list, seed)` it is deterministic, and the input list is left intact
(the source shuffles a copy). -/
theorem C4_seeded_shuffle_perm {α : Type} (array : List α) (seed : ℕ) :
    (IYF.seededShuffle array seed).Perm array ∧
    IYF.seededShuffle array seed = IYF.seededShuffle array seed :=
  ⟨fyGo_perm (array.length - 1) seed array, rfl⟩

/-- Zipping commutes with rotating both lists by the same amount, for
lists of the same length. -/
theorem zip_rotate {α β : Type} (l : List α) (l2 : List β)
    (h : l.length = l2.length) (k : ℕ) :
    (l.rotate k).zip (l2.rotate k) = (l.zip l2).rotate k := by
  apply List.ext_getElem
  · simp [h]
  · intro n h1 h2
    simp only [List.getElem_zip, List.getElem_rotate, List.length_zip, h,
      Nat.min_self]

/-- The edge list of a rotated polygon is the rotated edge list. -/
theorem edgeList_rotate (polygon : List IYF.Pt) (k : ℕ) :
    IYF.edgeList (polygon.rotate k) = (IYF.edgeList polygon).rotate k := by
  unfold IYF.edgeList
  rw [List.length_rotate]
  have h1 : (polygon.rotate k).rotate (polygon.length - 1)
      = (polygon.rotate (polygon.length - 1)).rotate k := by
    rw [List.rotate_rotate, List.rotate_rotate, Nat.add_comm]
  rw [h1]
  exact zip_rotate polygon (polygon.rotate (polygon.length - 1))
    (List.length_rotate polygon (polygon.length - 1)).symm k

/-- The crossing-parity fold equals xor of the initial flag with the
parity of the number of crossing edges. -/
theorem foldl_cross_parity (point : IYF.Pt) :
    ∀ (es : List (IYF.Pt × IYF.Pt)) (b : Bool),
      es.foldl (fun inside e => if IYF.edgeCross point e then !inside else inside) b
        = xor b (decide (es.countP (IYF.edgeCross point) % 2 = 1)) := by
  intro es
  induction es with
  | nil => intro b; simp
  | cons e es ih =>
    intro b
    rw [List.foldl_cons, ih, List.countP_cons]
    cases hc : IYF.edgeCross point e
    · simp [hc]
    · simp only [hc, if_true, if_pos rfl]
      have : (es.countP (IYF.edgeCross point) + 1) % 2 = 1
          ↔ ¬ (es.countP (IYF.edgeCross point) % 2 = 1) := by omega
      cases hp : decide (es.countP (IYF.edgeCross point) % 2 = 1) <;>
        cases b <;> simp_all

/-- C5: `isPointInPolygon` is invariant under any cyclic rotation of the
polygon's vertex list (same vertex set, same winding order). -/
theorem C5_point_in_polygon_rotation (point : IYF.Pt)
    (polygon : List IYF.Pt) (k : ℕ) :
    IYF.isPointInPolygon point (polygon.rotate k)
      = IYF.isPointInPolygon point polygon := by
  unfold IYF.isPointInPolygon
  rw [edgeList_rotate, foldl_cross_parity, foldl_cross_parity,
    (IYF.edgeList polygon).rotate_perm k |>.countP_eq]

/-- The scan loop of `findNearestSeed`, with a finite best-so-far
distance, either keeps the incumbent (then nothing in the remaining list
beats it) or returns a strictly better first-minimal element of the
remaining list. -/
theorem fnsGo_spec (p : IYF.Pt) :
    ∀ (l : List IYF.Pt) (best : IYF.Pt) (bd : ℚ), bd = IYF.dist2 p best →
      ∀ q, IYF.fnsGo p l (some bd) best = q →
      (q = best ∧ ∀ s ∈ l, bd ≤ IYF.dist2 p s) ∨
      (IYF.NearestSpec p l q ∧ IYF.dist2 p q < bd) := by
  intro l
  induction l with
  | nil =>
    intro best bd _ q hq
    have hq2 : best = q := hq
    exact Or.inl ⟨hq2.symm, by simp⟩
  | cons s rest ih =>
    intro best bd hbd q hq
    have hstep : IYF.fnsGo p (s :: rest) (some bd) best
        = if IYF.ltMin (IYF.dist2 p s) (some bd) = true
          then IYF.fnsGo p rest (some (IYF.dist2 p s)) s
          else IYF.fnsGo p rest (some bd) best := rfl
    by_cases hlt : IYF.dist2 p s < bd
    · have hq2 : IYF.fnsGo p rest (some (IYF.dist2 p s)) s = q := by
        rw [hstep, if_pos (by simpa [IYF.ltMin] using hlt)] at hq
        exact hq
      rcases ih s (IYF.dist2 p s) rfl q hq2 with
        ⟨hqs, hmin⟩ | ⟨⟨pre, post, hsplit, hpre, hall⟩, hless⟩
      · subst hqs
        refine Or.inr ⟨⟨[], rest, rfl, by simp, ?_⟩, hlt⟩
        intro t ht
        rcases List.mem_cons.mp ht with h | h
        · rw [h]
        · exact hmin t h
      · refine Or.inr ⟨⟨s :: pre, post, ?_, ?_, ?_⟩, lt_trans hless hlt⟩
        · rw [hsplit]; rfl
        · intro t ht
          rcases List.mem_cons.mp ht with h | h
          · rw [h]; exact hless
          · exact hpre t h
        · intro t ht
          rcases List.mem_cons.mp ht with h | h
          · rw [h]; exact le_of_lt hless
          · exact hall t h
    · have hq2 : IYF.fnsGo p rest (some bd) best = q := by
        rw [hstep, if_neg (by simpa [IYF.ltMin] using hlt)] at hq
        exact hq
      rcases ih best bd hbd q hq2 with
        ⟨hqb, hmin⟩ | ⟨⟨pre, post, hsplit, hpre, hall⟩, hless⟩
      · refine Or.inl ⟨hqb, ?_⟩
        intro t ht
        rcases List.mem_cons.mp ht with h | h
        · rw [h]; exact le_of_not_lt hlt
        · exact hmin t h
      · refine Or.inr ⟨⟨s :: pre, post, ?_, ?_, ?_⟩, hless⟩
        · rw [hsplit]; rfl
        · intro t ht
          rcases List.mem_cons.mp ht with h | h
          · rw [h]; exact lt_of_lt_of_le hless (le_of_not_lt hlt)
          · exact hpre t h
        · intro t ht
          rcases List.mem_cons.mp ht with h | h
          · rw [h]; exact le_of_lt (lt_of_lt_of_le hless (le_of_not_lt hlt))
          · exact hall t h

/-- C8: `findNearestSeed` is `none` exactly on the empty list; a
singleton always returns its seed; and any returned seed occurs in the
list, has minimal squared distance, and strictly beats every seed before
its position (first-encountered tie-breaking). -/
theorem C8_find_nearest_seed :
    (∀ (p : IYF.Pt) (seeds : List IYF.Pt),
      IYF.findNearestSeed p seeds = none ↔ seeds = []) ∧
    (∀ (p s : IYF.Pt), IYF.findNearestSeed p [s] = some s) ∧
    (∀ (p : IYF.Pt) (seeds : List IYF.Pt) (r : IYF.Pt),
      IYF.findNearestSeed p seeds = some r → IYF.NearestSpec p seeds r) := by
  refine ⟨?_, ?_, ?_⟩
  · intro p seeds
    cases seeds with
    | nil => simp [IYF.findNearestSeed]
    | cons s rest => simp [IYF.findNearestSeed]
  · intro p s
    rfl
  · intro p seeds r hr
    cases seeds with
    | nil => simp [IYF.findNearestSeed] at hr
    | cons s rest =>
      have hred : IYF.findNearestSeed p (s :: rest)
          = some (IYF.fnsGo p rest (some (IYF.dist2 p s)) s) := rfl
      rw [hred] at hr
      have hr2 : IYF.fnsGo p rest (some (IYF.dist2 p s)) s = r :=
        Option.some_injective _ hr
      rcases fnsGo_spec p rest s (IYF.dist2 p s) rfl r hr2 with
        ⟨hrs, hmin⟩ | ⟨⟨pre, post, hsplit, hpre, hall⟩, hless⟩
      · subst hrs
        refine ⟨[], rest, rfl, by simp, ?_⟩
        intro t ht
        rcases List.mem_cons.mp ht with h | h
        · rw [h]
        · exact hmin t h
      · refine ⟨s :: pre, post, ?_, ?_, ?_⟩
        · rw [hsplit]; rfl
        · intro t ht
          rcases List.mem_cons.mp ht with h | h
          · rw [h]; exact hless
          · exact hpre t h
        · intro t ht
          rcases List.mem_cons.mp ht with h | h
          · rw [h]; exact le_of_lt hless
          · exact hall t h

/-- Witness for C8: on the concrete list `[(0,0), (3,0)]` queried from
`(1,0)`, the returned seed `(0,0)` satisfies the nearest-seed contract. -/
theorem C8_find_nearest_seed_witness :
    IYF.NearestSpec ⟨1, 0⟩ [⟨0, 0⟩, ⟨3, 0⟩] ⟨0, 0⟩ :=
  C8_find_nearest_seed.2.2 ⟨1, 0⟩ [⟨0, 0⟩, ⟨3, 0⟩] ⟨0, 0⟩ (by norm_num [IYF.findNearestSeed, IYF.fnsGo, IYF.ltMin, IYF.dist2])

/-- With at most three indicators, the unlocked set is exactly the five
primary-tier catalog regions, in catalog order. -/
theorem getUnlocked_le3 (count : ℕ) (h : count ≤ 3) :
    IYF.getUnlockedRegions count =
      [ { id := .Forehead, tier := .primary, priority := 1,
          polygon := [⟨3/10, 1/10⟩, ⟨7/10, 1/10⟩, ⟨8/10, 25/100⟩, ⟨2/10, 25/100⟩] },
        { id := .Eyes, tier := .primary, priority := 2,
          polygon := [⟨2/10, 25/100⟩, ⟨8/10, 25/100⟩, ⟨8/10, 45/100⟩, ⟨2/10, 45/100⟩] },
        { id := .Nose, tier := .primary, priority := 3,
          polygon := [⟨4/10, 25/100⟩, ⟨6/10, 25/100⟩, ⟨65/100, 6/10⟩, ⟨35/100, 6/10⟩] },
        { id := .Mouth, tier := .primary, priority := 4,
          polygon := [⟨3/10, 6/10⟩, ⟨7/10, 6/10⟩, ⟨75/100, 75/100⟩, ⟨25/100, 75/100⟩] },
        { id := .Background, tier := .primary, priority := 0,
          polygon := [⟨0, 0⟩, ⟨1, 0⟩, ⟨1, 1⟩, ⟨0, 1⟩] } ] := by
  unfold IYF.getUnlockedRegions
  simp only [if_pos h]
  rfl

/-- `getRegionAt` only ever answers `Background` or the identity of a
member of its candidate set. -/
theorem getRegionAt_mem (x y : ℚ) (count : ℕ)
    (dyn : Option (List IYF.Region)) :
    IYF.getRegionAt x y count dyn = IYF.RegionType.Background ∨
      ∃ r ∈ dyn.getD (IYF.getUnlockedRegions count),
        r.id = IYF.getRegionAt x y count dyn := by
  unfold IYF.getRegionAt
  dsimp only
  cases hfind : (dyn.getD (IYF.getUnlockedRegions count)).mergeSort
      (fun a b => decide (b.priority ≤ a.priority)) |>.find?
      (fun r => IYF.isPointInPolygon ⟨x, y⟩ r.polygon) with
  | none => exact Or.inl rfl
  | some r =>
    refine Or.inr ⟨r, ?_, rfl⟩
    have hmem : r ∈ (dyn.getD (IYF.getUnlockedRegions count)).mergeSort
        (fun a b => decide (b.priority ≤ a.priority)) :=
      List.mem_of_find?_eq_some hfind
    exact (List.mergeSort_perm (dyn.getD (IYF.getUnlockedRegions count))
      (fun a b => decide (b.priority ≤ a.priority))).mem_iff.mp hmem

/-- C6: `getRegionAt` never returns an id outside the candidate set (the
supplied dynamic regions, else the unlocked regions) plus Background;
and with 1–3 indicators and no dynamic regions, only primary-tier ids
(or Background) can come back. -/
theorem C6_region_at_candidates :
    (∀ (x y : ℚ) (count : ℕ) (dyn : Option (List IYF.Region)),
      IYF.getRegionAt x y count dyn = IYF.RegionType.Background ∨
        ∃ r ∈ dyn.getD (IYF.getUnlockedRegions count),
          r.id = IYF.getRegionAt x y count dyn) ∧
    (∀ (x y : ℚ) (count : ℕ), 1 ≤ count → count ≤ 3 →
      IYF.getRegionAt x y count none ∈
        [IYF.RegionType.Forehead, IYF.RegionType.Eyes, IYF.RegionType.Nose,
         IYF.RegionType.Mouth, IYF.RegionType.Background]) := by
  refine ⟨getRegionAt_mem, ?_⟩
  intro x y count _ h3
  rcases getRegionAt_mem x y count none with h | ⟨r, hmem, hid⟩
  · rw [h]; simp
  · rw [← hid]
    have hmem2 : r ∈ IYF.getUnlockedRegions count := hmem
    rw [getUnlocked_le3 count h3] at hmem2
    simp only [List.mem_cons, List.not_mem_nil, or_false] at hmem2
    rcases hmem2 with h | h | h | h | h <;> subst h <;> simp

/-- Witness for C6 at a concrete point and indicator count 2. -/
theorem C6_region_at_candidates_witness :
    IYF.getRegionAt (1/2) (3/10) 2 none ∈
      [IYF.RegionType.Forehead, IYF.RegionType.Eyes, IYF.RegionType.Nose,
       IYF.RegionType.Mouth, IYF.RegionType.Background] :=
  C6_region_at_candidates.2 (1/2) (3/10) 2 (by norm_num) (by norm_num)

/-- The two source-triple determinants computed by `warpCaricature`
(`denom` and `det`) are the same polynomial. -/
theorem denom_eq_det (x0 y0 x1 y1 x2 y2 : ℚ) :
    x0 * (y1 - y2) - x1 * (y0 - y2) + x2 * (y0 - y1)
      = x0 * (y1 - y2) - y0 * (x1 - x2) + (x1 * y2 - x2 * y1) := by
  ring

/-- C2 counterexample: a non-Background region whose TARGET triple is
collinear is *not* skipped — the transform is still computed, because
both degeneracy checks consult only the source triple. -/
theorem C2_counterexample :
    IYF.collinearTriple ⟨0, 0⟩ ⟨1/2, 0⟩ ⟨1, 0⟩ ∧
    (({ id := .Chin, priority := 6, tier := .secondary,
        polygon := [⟨0, 0⟩, ⟨1, 0⟩, ⟨0, 1⟩] } : IYF.Region).id
          ≠ IYF.RegionType.Background) ∧
    (IYF.warpRegionTransform 100 100
      { id := .Chin, priority := 6, tier := .secondary,
        polygon := [⟨0, 0⟩, ⟨1, 0⟩, ⟨0, 1⟩] }
      { id := .Chin, priority := 6, tier := .secondary,
        polygon := [⟨0, 0⟩, ⟨1/2, 0⟩, ⟨1, 0⟩] }).isSome = true := by
  refine ⟨by norm_num [IYF.collinearTriple], by decide, ?_⟩
  norm_num [IYF.warpRegionTransform, List.getD]
  decide

/-- C2 amended: for a non-Background region, the warp is skipped exactly
when the SOURCE triple is near-degenerate (|det| < 1/1000 in pixel
coordinates); target collinearity plays no role in the skip decision. -/
theorem C2_amended_degenerate_skip (width height : ℚ)
    (sRegion tRegion : IYF.Region)
    (hid : sRegion.id ≠ IYF.RegionType.Background) :
    IYF.warpRegionTransform width height sRegion tRegion = none ↔
      |IYF.sourceDet width height sRegion| < 1/1000 := by
  unfold IYF.warpRegionTransform IYF.sourceDet
  rw [if_neg hid]
  dsimp only
  rw [denom_eq_det]
  split_ifs with h1 h2
  · refine iff_of_true rfl ?_
    exact lt_trans h1 (by norm_num)
  · exact iff_of_true rfl h2
  · exact iff_of_false (by simp) h2

/-- Witness for the amended C2: a collinear SOURCE triple is skipped. -/
theorem C2_amended_degenerate_skip_witness :
    IYF.warpRegionTransform 100 100
      { id := .Chin, priority := 6, tier := .secondary,
        polygon := [⟨0, 0⟩, ⟨1, 0⟩, ⟨2, 0⟩] }
      { id := .Chin, priority := 6, tier := .secondary,
        polygon := [⟨0, 0⟩, ⟨1, 0⟩, ⟨0, 1⟩] } = none :=
  (C2_amended_degenerate_skip 100 100
      { id := .Chin, priority := 6, tier := .secondary,
        polygon := [⟨0, 0⟩, ⟨1, 0⟩, ⟨2, 0⟩] }
      { id := .Chin, priority := 6, tier := .secondary,
        polygon := [⟨0, 0⟩, ⟨1, 0⟩, ⟨0, 1⟩] }
      (by decide)).mpr
    (by norm_num [IYF.sourceDet, List.getD])

/-- The indicator built for a target magnitude normalizes to exactly
that magnitude on [0,1]. -/
theorem normalize_mkMag (m : ℚ) (h0 : 0 ≤ m) (h1 : m ≤ 1) :
    IYF.normalizeIndicator (IYF.mkMagIndicator m) = m := by
  unfold IYF.normalizeIndicator IYF.mkMagIndicator
  norm_num
  rw [min_eq_right h1, max_eq_right h0]

/-- Looking up Chin among the dynamic regions finds the transformed Chin
template (transformation preserves identities, so the search is the same
as on the static catalog). -/
theorem chin_template_find (m : ℚ) :
    (IYF.getDynamicRegions [] (IYF.chinOnlyMap m) IYF.jm0).find?
        (fun r => decide (r.id = IYF.RegionType.Chin))
      = Option.map (IYF.transformRegion IYF.jm0 (IYF.chinOnlyMap m))
          (some { id := .Chin, tier := .secondary, priority := 6,
                  polygon := [⟨3/10, 75/100⟩, ⟨7/10, 75/100⟩, ⟨5/10, 9/10⟩] }) := by
  unfold IYF.getDynamicRegions
  rw [List.find?_map]
  have hpred : ((fun r => decide (r.id = IYF.RegionType.Chin)) ∘
      IYF.transformRegion IYF.jm0 (IYF.chinOnlyMap m))
      = (fun r : IYF.Region => decide (r.id = IYF.RegionType.Chin)) := by
    funext r
    simp only [Function.comp]
    rw [(transformRegion_fields IYF.jm0 (IYF.chinOnlyMap m) r).1]
  rw [hpred]
  rfl

/-- Closed form of the dynamic Chin apex x-coordinate: piecewise linear
in the magnitude, slope 3/100 below the 0.5 threshold (symmetric branch)
and 3/200 above (asymmetric branch with side factor 1/2 at x = 0.5). -/
theorem chinThirdX_eq (m : ℚ) (h0 : 0 ≤ m) (h1 : m ≤ 1) :
    IYF.chinThirdX m =
      if 1/2 < m then 1/2 + (3/200) * (m - 1/2)
      else 1/2 + (3/100) * (m - 1/2) := by
  unfold IYF.chinThirdX IYF.chinPolyAt
  rw [chin_template_find m]
  simp only [Option.map, Option.getD]
  unfold IYF.transformRegion
  norm_num [IYF.chinOnlyMap, normalize_mkMag m h0 h1, List.getD]
  split_ifs <;> simp_all <;> ring

/-- The Chin apex x-coordinate is right-continuous at magnitude 1/2. -/
theorem chin_rc : IYF.RightContinuousAt IYF.chinThirdX (1/2) := by
  intro eps heps
  refine ⟨min (1/2) eps, lt_min (by norm_num) heps, ?_⟩
  intro m hlo hhi
  have hmin1 : min (1/2 : ℚ) eps ≤ 1/2 := min_le_left _ _
  have hmin2 : min (1/2 : ℚ) eps ≤ eps := min_le_right _ _
  have h0 : (0 : ℚ) ≤ m := by linarith
  have h1 : m ≤ 1 := by linarith
  rw [chinThirdX_eq m h0 h1,
    chinThirdX_eq (1/2) (by norm_num) (by norm_num),
    if_pos hlo, if_neg (by norm_num : ¬ ((1:ℚ)/2 < 1/2))]
  rw [abs_lt]
  constructor <;> linarith

/-- The Chin apex x-coordinate is left-continuous at magnitude 1/2. -/
theorem chin_lc : IYF.LeftContinuousAt IYF.chinThirdX (1/2) := by
  intro eps heps
  refine ⟨min (1/2) eps, lt_min (by norm_num) heps, ?_⟩
  intro m hlo hhi
  have hmin1 : min (1/2 : ℚ) eps ≤ 1/2 := min_le_left _ _
  have hmin2 : min (1/2 : ℚ) eps ≤ eps := min_le_right _ _
  have h0 : (0 : ℚ) ≤ m := by linarith
  have h1 : m ≤ 1 := by linarith
  rw [chinThirdX_eq m h0 h1,
    chinThirdX_eq (1/2) (by norm_num) (by norm_num),
    if_neg (by linarith : ¬ ((1:ℚ)/2 < m)),
    if_neg (by norm_num : ¬ ((1:ℚ)/2 < 1/2))]
  rw [abs_lt]
  constructor <;> linarith

/-- At magnitude exactly 1/2 the symmetric branch runs with zero skew:
the dynamic Chin polygon equals the template. -/
theorem chinPolyAt_half :
    IYF.chinPolyAt (1/2) = [⟨3/10, 75/100⟩, ⟨7/10, 75/100⟩, ⟨5/10, 9/10⟩] := by
  unfold IYF.chinPolyAt
  rw [chin_template_find (1/2)]
  simp only [Option.map, Option.getD]
  unfold IYF.transformRegion
  norm_num [IYF.chinOnlyMap, IYF.normalizeIndicator, IYF.mkMagIndicator]

/-- C1 counterexample: the claim asserts the Chin polygon (as a function
of magnitude) is discontinuous approaching 1/2 from above; in fact the
moving (apex) vertex coordinate is right-continuous at 1/2 — the skew
factor `(m - 0.5) * 0.2` vanishes at the threshold in both branches, so
the asymmetric side factor changes only the slope, not the value. -/
theorem C1_counterexample_right_continuous :
    IYF.RightContinuousAt IYF.chinThirdX (1/2) := chin_rc

/-- C1 amended: at magnitude exactly 1/2 the asymmetric branch does not
fire and the symmetric skew path runs (leaving the template unchanged);
the Chin polygon is continuous at 1/2 from below AND from above; the
deliberate `m > 0.5` branch shows up as a slope change of the apex
vertex (3/100 per unit magnitude below the threshold, 3/200 above) — a
kink, not a jump. -/
theorem C1_amended_chin_kink :
    (IYF.chinPolyAt (1/2) = [⟨3/10, 75/100⟩, ⟨7/10, 75/100⟩, ⟨5/10, 9/10⟩]) ∧
    (∀ m : ℚ, 1/2 < m → m ≤ 1 →
      IYF.chinThirdX m - IYF.chinThirdX (1/2) = (3/200) * (m - 1/2)) ∧
    (∀ m : ℚ, 0 ≤ m → m ≤ 1/2 →
      IYF.chinThirdX m - IYF.chinThirdX (1/2) = (3/100) * (m - 1/2)) ∧
    IYF.RightContinuousAt IYF.chinThirdX (1/2) ∧
    IYF.LeftContinuousAt IYF.chinThirdX (1/2) := by
  refine ⟨chinPolyAt_half, ?_, ?_, chin_rc, chin_lc⟩
  · intro m hm hm1
    rw [chinThirdX_eq m (by linarith) hm1,
      chinThirdX_eq (1/2) (by norm_num) (by norm_num),
      if_pos hm, if_neg (by norm_num : ¬ ((1:ℚ)/2 < 1/2))]
    ring
  · intro m hm0 hm
    rw [chinThirdX_eq m hm0 (by linarith),
      chinThirdX_eq (1/2) (by norm_num) (by norm_num),
      if_neg (by linarith : ¬ ((1:ℚ)/2 < m)),
      if_neg (by norm_num : ¬ ((1:ℚ)/2 < 1/2))]
    ring

/-- Witness for the amended C1 at magnitude 3/4 (asymmetric branch). -/
theorem C1_amended_chin_kink_witness :
    IYF.chinThirdX (3/4) - IYF.chinThirdX (1/2) = (3/200) * ((3/4) - 1/2) :=
  C1_amended_chin_kink.2.1 (3/4) (by norm_num) (by norm_num)
